import Mathlib

/-!
# Verification of the barbearia scheduling backend

A shallow embedding of the appointment-lifecycle, loyalty-ledger,
voucher-lifecycle and availability-calculator code of the repository
(controllers `appointmentController`, `loyaltyController`,
`configController`, the `DatabaseStorage` layer and the cleanup
scheduler), together with theorems settling the specification's claims
about it.

Modelling conventions:
* ids are `Nat`; dates are `String` in `YYYY-MM-DD` form and times are
  `String` in `HH:MM` form, exactly as the drizzle schema stores them
  (text columns, compared lexicographically by SQL, which agrees with
  chronological order for these formats);
* monetary amounts (the decimal `price` / `totalSpent` columns, read by
  `parseFloat` in the controllers) are modelled as `Nat`;
* timestamps handed to `new Date()` are an abstract `Nat` tick count
  passed explicitly as `now`;
* the database is a `Store` record of lists; a SQL `select ... limit 1`
  is `List.find?`, an `update ... where` is a `List.map` guarded on the
  key, an `insert` appends (or prepends where the reading query orders
  by `createdAt desc`, as for voucher configs).
-/

namespace Barbearia

/-- `appointment_status` enum of `shared/schema.ts`. -/
inductive Status
  | SCHEDULED | CONFIRMED | IN_PROGRESS | COMPLETED | CANCELLED
deriving DecidableEq, Repr

/-- `user_role` enum of `shared/schema.ts`. -/
inductive Role
  | SUPER_ADMIN | ADMIN | BARBEIRO | CLIENTE
deriving DecidableEq, Repr

/-- `voucher_status` enum of `shared/schema.ts`. -/
inductive VStatus
  | ACTIVE | USED | EXPIRED
deriving DecidableEq, Repr

/-- A row of the `barbeiros` table (fields the controllers read). -/
structure Barbeiro where
  id : Nat
  userId : Nat
  isAvailable : Bool
deriving DecidableEq, Repr

/-- A row of the `appointments` table (fields the controllers read). -/
structure Appointment where
  id : Nat
  clientId : Nat
  barberId : Nat
  serviceType : String
  appointmentDate : String
  appointmentTime : String
  status : Status
  notes : Option String
  price : Option Nat
deriving DecidableEq, Repr

/-- A row of the `client_service_counts` table, keyed by `userId`. -/
structure ClientServiceCount where
  userId : Nat
  completedServices : Nat
  totalSpent : Nat
deriving DecidableEq, Repr

/-- A row of the `voucher_configs` table. -/
structure VoucherConfig where
  id : Nat
  servicesRequired : Nat
  discountPercentage : Nat
  validityDays : Nat
  isActive : Bool
deriving DecidableEq, Repr

/-- A row of the `vouchers` table. -/
structure Voucher where
  id : Nat
  userId : Nat
  configId : Nat
  code : String
  status : VStatus
  expiryDate : Nat
  usedAt : Option Nat
  usedAppointmentId : Option Nat
deriving DecidableEq, Repr

/-- One weekday entry of the `businessHoursSchema` object: a
start/close pair of `HH:MM` strings. `finish` embeds the source field
named `end` (a reserved word in Lean). -/
structure OpenHours where
  start : String
  finish : String
deriving DecidableEq, Repr

/-- The `BUSINESS_HOURS` configuration value: per weekday an optional
open/close pair, `none` meaning closed (`null` in the schema). -/
structure BusinessHours where
  monday : Option OpenHours
  tuesday : Option OpenHours
  wednesday : Option OpenHours
  thursday : Option OpenHours
  friday : Option OpenHours
  saturday : Option OpenHours
  sunday : Option OpenHours
deriving DecidableEq, Repr

/-- The caller identity attached by the auth middleware
(`req.user`): id and role. -/
structure UserCtx where
  id : Nat
  role : Role
deriving DecidableEq, Repr

/-- The database state seen through `DatabaseStorage`: one list per
table the verified controllers touch, plus fresh-id counters standing
for `gen_random_uuid()`, and the optional `BUSINESS_HOURS` row of
`business_config`. -/
structure Store where
  barbeiros : List Barbeiro
  appointments : List Appointment
  serviceCounts : List ClientServiceCount
  voucherConfigs : List VoucherConfig
  vouchers : List Voucher
  businessHours : Option BusinessHours
  nextApptId : Nat
  nextConfigId : Nat
  nextVoucherId : Nat
deriving DecidableEq, Repr

/-! ## Executable string primitives

SQL compares the text date columns lexicographically by character
code (which coincides with chronological order for `YYYY-MM-DD`), and
the controllers split strings on a separator character. The built-in
`String` comparison and `splitOn` are not kernel-reducible, so the
same operations are given here in directly computable form over the
character list. -/

/-- Lexicographic strict comparison, character by character. -/
def strLtAux : List Char → List Char → Bool
  | [], [] => false
  | [], _ :: _ => true
  | _ :: _, [] => false
  | a :: as, b :: bs =>
      if a < b then true else if a = b then strLtAux as bs else false

/-- The SQL `<` on text columns: lexicographic by character code. -/
def strLt (s t : String) : Bool := strLtAux s.data t.data

/-- The SQL `<=` on text columns, via totality: `s ≤ t ↔ ¬ t < s`. -/
def strLe (s t : String) : Bool := ! strLt t s

/-- `String.split` on one separator character: accumulator-based walk
over the characters. -/
def splitOnCharAux (c : Char) : List Char → List Char → List (List Char)
  | [], acc => [acc.reverse]
  | x :: xs, acc =>
      if x = c then acc.reverse :: splitOnCharAux c xs []
      else splitOnCharAux c xs (x :: acc)

/-- `str.split(sep)` for a one-character separator. -/
def splitOnChar (c : Char) (s : String) : List String :=
  (splitOnCharAux c s.data []).map String.mk

/-- Decimal digits folded into a number. -/
def digitsValAux : List Char → Nat → Option Nat
  | [], acc => some acc
  | ch :: chs, acc =>
      if 48 ≤ ch.toNat ∧ ch.toNat ≤ 57 then
        digitsValAux chs (acc * 10 + (ch.toNat - 48))
      else none

/-- `Number(str)` on a nonempty all-digit string (the behaviour of
`String.toNat?`): `none` on empty or non-digit input. -/
def strToNat? (s : String) : Option Nat :=
  match s.data with
  | [] => none
  | _ => digitsValAux s.data 0

/-! ## Storage layer (`server/storage.ts`) -/

/-- `storage.getBarbeiro`: select by primary key. -/
def getBarbeiro (s : Store) (id : Nat) : Option Barbeiro :=
  s.barbeiros.find? (fun b => b.id = id)

/-- `storage.getBarbeiroByUserId`. -/
def getBarbeiroByUserId (s : Store) (userId : Nat) : Option Barbeiro :=
  s.barbeiros.find? (fun b => b.userId = userId)

/-- `storage.getAppointment`: select by primary key. -/
def getAppointment (s : Store) (id : Nat) : Option Appointment :=
  s.appointments.find? (fun a => a.id = id)

/-- `storage.getClientServiceCount`: select by `userId`. -/
def getClientServiceCount (s : Store) (userId : Nat) : Option ClientServiceCount :=
  s.serviceCounts.find? (fun c => c.userId = userId)

/-- `storage.updateClientServiceCount`: update the row keyed by
`userId` to the given absolute values, inserting a fresh row when none
exists (the controller passes the already-incremented values). -/
def updateClientServiceCount (s : Store) (userId completed spent : Nat) : Store :=
  match getClientServiceCount s userId with
  | some _ =>
      { s with serviceCounts := s.serviceCounts.map (fun c =>
          if c.userId = userId then
            { c with completedServices := completed, totalSpent := spent }
          else c) }
  | none =>
      { s with serviceCounts :=
          s.serviceCounts ++ [⟨userId, completed, spent⟩] }

/-- `storage.getActiveVoucherConfig`: the most recently created active
config (`order by createdAt desc limit 1`); the config list is kept
newest-first, so this is the first active entry. -/
def getActiveVoucherConfig (s : Store) : Option VoucherConfig :=
  s.voucherConfigs.find? (fun c => c.isActive)

/-- `storage.updateVoucherConfig` restricted to the one use the
controllers make of it: setting `isActive` of the row with the given
id to `false`. -/
def deactivateVoucherConfig (s : Store) (id : Nat) : Store :=
  { s with voucherConfigs := s.voucherConfigs.map (fun c =>
      if c.id = id then { c with isActive := false } else c) }

/-- `storage.getVoucherByCode`. -/
def getVoucherByCode (s : Store) (code : String) : Option Voucher :=
  s.vouchers.find? (fun v => v.code = code)

/-- `storage.updateVoucher`: apply an update to the row(s) with the
given id. -/
def updateVoucher (s : Store) (id : Nat) (f : Voucher → Voucher) : Store :=
  { s with vouchers := s.vouchers.map (fun v => if v.id = id then f v else v) }

/-- `storage.getAppointmentsByDateRange`: rows whose text date column
lies between the bounds (inclusive), lexicographic string order. -/
def getAppointmentsByDateRange (s : Store) (startDate endDate : String) :
    List Appointment :=
  s.appointments.filter (fun a =>
    strLe startDate a.appointmentDate && strLe a.appointmentDate endDate)

/-! ## Appointment creation (`appointmentController.createAppointment`) -/

/-- The request body of `POST /api/appointments`
(`CreateAppointmentData`). -/
structure CreateData where
  barberId : Nat
  serviceType : String
  appointmentDate : String
  appointmentTime : String
  notes : Option String
  price : Option Nat
deriving DecidableEq, Repr

/-- Result of `createAppointment`: the error codes the controller can
answer with, or the created row. The controller has no slot-conflict
branch, so no such constructor exists. -/
inductive CreateResult
  | barbeiroNotFound
  | barbeiroUnavailable
  | created (a : Appointment)
deriving DecidableEq, Repr

/-- The appointment row `createAppointment` inserts: client taken from
the caller, status hard-coded `SCHEDULED`. -/
def mkNewAppointment (s : Store) (user : UserCtx) (d : CreateData) : Appointment :=
  { id := s.nextApptId
    clientId := user.id
    barberId := d.barberId
    serviceType := d.serviceType
    appointmentDate := d.appointmentDate
    appointmentTime := d.appointmentTime
    status := .SCHEDULED
    notes := d.notes
    price := d.price }

/-- `createAppointment` (appointmentController): verify the barbeiro
exists, verify it `isAvailable`, then insert directly — the controller
performs no check against existing appointments at the same slot. -/
def createAppointment (s : Store) (user : UserCtx) (d : CreateData) :
    CreateResult × Store :=
  match getBarbeiro s d.barberId with
  | none => (.barbeiroNotFound, s)
  | some b =>
      if b.isAvailable then
        let a := mkNewAppointment s user d
        (.created a,
          { s with appointments := s.appointments ++ [a],
                   nextApptId := s.nextApptId + 1 })
      else (.barbeiroUnavailable, s)

/-! ## Appointment deletion (`appointmentController.deleteAppointment`) -/

/-- Result of `deleteAppointment`. -/
inductive DeleteResult
  | apptNotFound
  | permissionDenied
  | deleted
deriving DecidableEq, Repr

/-- `deleteAppointment`: fetch the appointment first (404 when
missing), only then check the ADMIN/SUPER_ADMIN role (403), then
delete the row. -/
def deleteAppointment (s : Store) (user : UserCtx) (id : Nat) :
    DeleteResult × Store :=
  match getAppointment s id with
  | none => (.apptNotFound, s)
  | some _ =>
      if user.role = .ADMIN ∨ user.role = .SUPER_ADMIN then
        (.deleted, { s with appointments :=
          s.appointments.filter (fun a => ¬ a.id = id) })
      else (.permissionDenied, s)

/-! ## Loyalty ledger and voucher issuance
(`appointmentController.updateAppointment` lines 166–182 and
`checkAndCreateVoucher`) -/

/-- The voucher row `checkAndCreateVoucher` inserts: code
`FIDELIDADE<Date.now()>`, expiry `now + validityDays`, status
`ACTIVE`, no usage data. -/
def mkVoucher (s : Store) (clientId : Nat) (cfg : VoucherConfig) (now : Nat) :
    Voucher :=
  { id := s.nextVoucherId
    userId := clientId
    configId := cfg.id
    code := "FIDELIDADE" ++ toString now
    status := .ACTIVE
    expiryDate := now + cfg.validityDays
    usedAt := none
    usedAppointmentId := none }

/-- `checkAndCreateVoucher`: if an active config exists and the
(post-increment) completed-service count is an exact multiple of
`servicesRequired`, insert a fresh `ACTIVE` voucher; otherwise do
nothing. -/
def checkAndCreateVoucher (s : Store) (clientId completed now : Nat) : Store :=
  match getActiveVoucherConfig s with
  | none => s
  | some cfg =>
      if completed % cfg.servicesRequired = 0 then
        { s with vouchers := s.vouchers ++ [mkVoucher s clientId cfg now],
                 nextVoucherId := s.nextVoucherId + 1 }
      else s

/-- The ledger update inlined in `updateAppointment` (the spec's
`recordCompletedService`): read the client's row (absent meaning count
0, spend 0), write back count + 1 and spend + amount, then run the
voucher threshold check on the post-increment count. -/
def recordCompletedService (s : Store) (clientId amountPaid now : Nat) : Store :=
  let cnt := getClientServiceCount s clientId
  let newCompleted := (match cnt with
    | some c => c.completedServices
    | none => 0) + 1
  let newSpent := (match cnt with
    | some c => c.totalSpent
    | none => 0) + amountPaid
  let s1 := updateClientServiceCount s clientId newCompleted newSpent
  checkAndCreateVoucher s1 clientId newCompleted now

/-- The client's completed-service count as the controllers read it
(missing row counts as 0). -/
def ledgerCount (s : Store) (clientId : Nat) : Nat :=
  match getClientServiceCount s clientId with
  | some c => c.completedServices
  | none => 0

/-- The client's cumulative spend as the controllers read it (missing
row counts as 0). -/
def ledgerSpent (s : Store) (clientId : Nat) : Nat :=
  match getClientServiceCount s clientId with
  | some c => c.totalSpent
  | none => 0

/-! ## Appointment update (`appointmentController.updateAppointment`) -/

/-- The request body of `PUT /api/appointments/:id`
(`updateAppointmentSchema`): every field optional. -/
structure UpdateData where
  status : Option Status
  notes : Option String
  price : Option Nat
deriving DecidableEq, Repr

/-- Result of `updateAppointment`. -/
inductive UpdateResult
  | apptNotFound
  | permissionDenied
  | updated (a : Appointment)
deriving DecidableEq, Repr

/-- `checkUpdatePermissions`: admins may always update; a barbeiro only
appointments assigned to their own barbeiro profile; a cliente only
their own appointments while not `COMPLETED`. -/
def checkUpdatePermissions (s : Store) (user : UserCtx) (a : Appointment) : Bool :=
  match user.role with
  | .SUPER_ADMIN => true
  | .ADMIN => true
  | .BARBEIRO =>
      match getBarbeiroByUserId s user.id with
      | some b => decide (b.id = a.barberId)
      | none => false
  | .CLIENTE => decide (a.clientId = user.id ∧ a.status ≠ .COMPLETED)

/-- The partial update drizzle applies: provided fields overwrite,
absent fields keep the row's values. -/
def applyUpdates (u : UpdateData) (a : Appointment) : Appointment :=
  { a with
      status := u.status.getD a.status
      notes := match u.notes with
        | some n => some n
        | none => a.notes
      price := match u.price with
        | some p => some p
        | none => a.price }

/-- `updateAppointment`: fetch (404), check permissions (403), run the
ledger + voucher block exactly when the update submits `COMPLETED` and
the stored status is not already `COMPLETED`, then apply the partial
update to the row. -/
def updateAppointment (s : Store) (user : UserCtx) (id : Nat) (u : UpdateData)
    (now : Nat) : UpdateResult × Store :=
  match getAppointment s id with
  | none => (.apptNotFound, s)
  | some a =>
      if checkUpdatePermissions s user a then
        let s1 :=
          if u.status = some .COMPLETED ∧ a.status ≠ .COMPLETED then
            recordCompletedService s a.clientId (a.price.getD 0) now
          else s
        (.updated (applyUpdates u a),
          { s1 with appointments := s1.appointments.map (fun x =>
              if x.id = id then applyUpdates u x else x) })
      else (.permissionDenied, s)

/-- An `updateStatus` call submitting `COMPLETED` and nothing else. -/
def completedUpd : UpdateData := ⟨some .COMPLETED, none, none⟩

/-- A sequence of `updateStatus(..., COMPLETED)` calls on one
appointment, each by some actor at some time. -/
def applyCompletedCalls (id : Nat) (s : Store) (calls : List (UserCtx × Nat)) :
    Store :=
  calls.foldl (fun st c => (updateAppointment st c.1 id completedUpd c.2).2) s

/-! ## Voucher redemption (`loyaltyController.redeemVoucher`) -/

/-- Result of `redeemVoucher`: the error codes of the controller, or
the updated voucher. -/
inductive RedeemResult
  | voucherNotFound
  | voucherNotOwned
  | voucherInactive
  | voucherExpired
  | apptNotFound
  | apptNotOwned
  | redeemed (v : Voucher)
deriving DecidableEq, Repr

/-- The update applied to a successfully redeemed voucher: `USED`,
`usedAt = now`, redeeming appointment recorded. -/
def markVoucherUsed (appointmentId : Option Nat) (now : Nat) (w : Voucher) :
    Voucher :=
  { w with status := .USED, usedAt := some now,
           usedAppointmentId := appointmentId }

/-- `redeemVoucher`: look the voucher up by code (404), check
ownership (403), check the status is `ACTIVE` (400 `VOUCHER_INACTIVE`),
check expiry — transitioning the voucher to `EXPIRED` before failing
(400 `VOUCHER_EXPIRED`) —, validate the optional appointment, then mark
the voucher `USED`. -/
def redeemVoucher (s : Store) (user : UserCtx) (code : String)
    (appointmentId : Option Nat) (now : Nat) : RedeemResult × Store :=
  match getVoucherByCode s code with
  | none => (.voucherNotFound, s)
  | some v =>
      if v.userId ≠ user.id then (.voucherNotOwned, s)
      else if v.status ≠ .ACTIVE then (.voucherInactive, s)
      else if v.expiryDate < now then
        (.voucherExpired,
          updateVoucher s v.id (fun w => { w with status := .EXPIRED }))
      else
        match appointmentId with
        | some aid =>
            match getAppointment s aid with
            | none => (.apptNotFound, s)
            | some appt =>
                if appt.clientId ≠ user.id then (.apptNotOwned, s)
                else (.redeemed (markVoucherUsed appointmentId now v),
                  updateVoucher s v.id (markVoucherUsed appointmentId now))
        | none =>
            (.redeemed (markVoucherUsed appointmentId now v),
              updateVoucher s v.id (markVoucherUsed appointmentId now))

/-! ## Voucher configuration (`loyaltyController.configureVouchers`) -/

/-- The request body of the voucher-configuration endpoint. -/
structure ConfigData where
  servicesRequired : Nat
  discountPercentage : Nat
  validityDays : Nat
deriving DecidableEq, Repr

/-- The config row `configureVouchers` inserts (`isActive: true`). -/
def mkConfig (s : Store) (d : ConfigData) : VoucherConfig :=
  { id := s.nextConfigId
    servicesRequired := d.servicesRequired
    discountPercentage := d.discountPercentage
    validityDays := d.validityDays
    isActive := true }

/-- `configureVouchers`: deactivate the currently active config found
by `getActiveVoucherConfig` (if any), then create the new one active.
The config list is kept newest-first, matching the
`order by createdAt desc` read. -/
def configureVouchers (s : Store) (d : ConfigData) : Store :=
  let s1 := match getActiveVoucherConfig s with
    | some c => deactivateVoucherConfig s c.id
    | none => s
  { s1 with voucherConfigs := mkConfig s1 d :: s1.voucherConfigs,
            nextConfigId := s1.nextConfigId + 1 }

/-- Number of active voucher configs in a store. -/
def countActiveConfigs (s : Store) : Nat :=
  (s.voucherConfigs.filter (fun c => c.isActive)).length

/-! ## Maintenance sweep (`scheduler.scheduleCleanupTasks` +
`storage.getOldPendingAppointments`) -/

/-- The annotation appended to auto-cancelled appointments. -/
def autoCancelNote : String := " [Auto-cancelado por prazo expirado]"

/-- What the cleanup job does to one appointment: a `SCHEDULED` row
whose date lies strictly before today (text comparison, which is
chronological for `YYYY-MM-DD`) becomes `CANCELLED` with the
auto-cancellation note appended to its notes (`''` when null); all
other rows are untouched. -/
def expireStep (today : String) (a : Appointment) : Appointment :=
  if a.status = .SCHEDULED ∧ strLt a.appointmentDate today then
    { a with status := .CANCELLED,
             notes := some ((a.notes.getD "") ++ autoCancelNote) }
  else a

/-- The maintenance sweep `expireStale(now)`: fetch the old pending
appointments and cancel each one (update keyed by primary key,
modelled as a map over the table). -/
def expireStale (today : String) (s : Store) : Store :=
  { s with appointments := s.appointments.map (expireStep today) }

/-! ## Availability calculator (`configController`) -/

/-- `timeString.split(':').map(Number)` then `hours * 60 + minutes`. -/
def parseTime (t : String) : Nat :=
  match (splitOnChar ':' t).map strToNat? with
  | [some h, some mi] => h * 60 + mi
  | _ => 0

/-- `toString().padStart(2, '0')`. -/
def pad2 (n : Nat) : String :=
  if n < 10 then "0" ++ toString n else toString n

/-- Minutes-since-midnight back to `HH:MM`. -/
def formatTime (minutes : Nat) : String :=
  pad2 (minutes / 60) ++ ":" ++ pad2 (minutes % 60)

/-- The `generateTimeSlots` while-loop on minute counts, with explicit
fuel; `fuel ≥ finish - current` makes it the loop
`while (current < finish) { push current; current += 30 }`. -/
def genSlotsAux : Nat → Nat → Nat → List Nat
  | 0, _, _ => []
  | fuel + 1, current, finish =>
      if current < finish then current :: genSlotsAux fuel (current + 30) finish
      else []

/-- The slot start minutes from `current` up to (excluding) `finish`
in 30-minute steps. -/
def genSlots (current finish : Nat) : List Nat :=
  genSlotsAux (finish - current) current finish

/-- `generateTimeSlots`: the `HH:MM` slot strings between two times. -/
def generateTimeSlots (startTime endTime : String) : List String :=
  (genSlots (parseTime startTime) (parseTime endTime)).map formatTime

/-- `date.split('-')` into year/month/day; `none` on malformed input
(logic of `new Date(date)` yielding an invalid date). -/
def parseDate (s : String) : Option (Nat × Nat × Nat) :=
  match (splitOnChar (Char.ofNat 45) s).map strToNat? with
  | [some y, some m, some d] => some (y, m, d)
  | _ => none

/-- `new Date(date).getDay()` for a civil date (UTC): 0 = Sunday …
6 = Saturday, via Zeller's congruence. -/
def dayOfWeekJS (y m d : Nat) : Nat :=
  let ym := if m ≤ 2 then (y - 1, m + 12) else (y, m)
  let K := ym.1 % 100
  let J := ym.1 / 100
  let h := (d + (13 * (ym.2 + 1)) / 5 + K + K / 4 + J / 4 + 5 * J) % 7
  (h + 6) % 7

/-- `businessHours[dayNames[getDay()]]`. -/
def dayHoursFor (bh : BusinessHours) (dow : Nat) : Option OpenHours :=
  match dow with
  | 0 => bh.sunday
  | 1 => bh.monday
  | 2 => bh.tuesday
  | 3 => bh.wednesday
  | 4 => bh.thursday
  | 5 => bh.friday
  | _ => bh.saturday

/-- Result of `getAvailableTimeSlots`: missing-date 400, the 500
`BUSINESS_HOURS_NOT_CONFIGURED` error, the closed-day response
(`availableSlots: []`), or the normal available/busy response. -/
inductive SlotsResult
  | missingDate
  | notConfigured
  | closed
  | ok (available busy : List String)
deriving DecidableEq, Repr

/-- The busy slots of a date: that date's appointments, optionally
filtered to one barbeiro, in a non-terminal status, mapped to their
times. -/
def busySlotsOf (s : Store) (date : String) (bid : Option Nat) : List String :=
  (((getAppointmentsByDateRange s date date).filter (fun a =>
      match bid with
      | none => true
      | some b => decide (a.barberId = b))).filter (fun a =>
    decide (a.status = .SCHEDULED ∨ a.status = .CONFIRMED ∨
      a.status = .IN_PROGRESS))).map (fun a => a.appointmentTime)

/-- `getAvailableTimeSlots`: requires a date; fails with
`BUSINESS_HOURS_NOT_CONFIGURED` when no `BUSINESS_HOURS` row exists
(no fallback to defaults here); answers the closed response when the
weekday is configured closed (or the date is malformed); otherwise
generates the 30-minute slots and removes the busy ones. -/
def getAvailableTimeSlots (s : Store) (date : Option String)
    (bid : Option Nat) : SlotsResult :=
  match date with
  | none => .missingDate
  | some date =>
      match s.businessHours with
      | none => .notConfigured
      | some bh =>
          let dayHours := match parseDate date with
            | some (y, m, d) => dayHoursFor bh (dayOfWeekJS y m d)
            | none => none
          match dayHours with
          | none => .closed
          | some oh =>
              let slots := generateTimeSlots oh.start oh.finish
              let busy := busySlotsOf s date bid
              .ok (slots.filter (fun slot => ! busy.contains slot)) busy

/-- The hard-coded default weekly schedule of `getBusinessHours`. -/
def defaultBusinessHours : BusinessHours :=
  { monday := some ⟨"08:00", "18:00"⟩
    tuesday := some ⟨"08:00", "18:00"⟩
    wednesday := some ⟨"08:00", "18:00"⟩
    thursday := some ⟨"08:00", "18:00"⟩
    friday := some ⟨"08:00", "18:00"⟩
    saturday := some ⟨"08:00", "16:00"⟩
    sunday := none }

/-- `getBusinessHours`: the stored configuration, or the default
schedule flagged `isDefault: true` when none is stored. -/
def getBusinessHours (s : Store) : BusinessHours × Bool :=
  match s.businessHours with
  | none => (defaultBusinessHours, true)
  | some bh => (bh, false)

/-! ## Concrete fixtures used by counterexamples and witnesses -/

/-- An empty database. -/
def emptyStore : Store :=
  { barbeiros := [], appointments := [], serviceCounts := [],
    voucherConfigs := [], vouchers := [], businessHours := none,
    nextApptId := 0, nextConfigId := 0, nextVoucherId := 0 }

/-- An available barbeiro, id 1. -/
def fixtureBarb : Barbeiro := { id := 1, userId := 10, isAvailable := true }

/-- A `SCHEDULED` appointment already holding slot
(barbeiro 1, 2025-06-02, 08:00). -/
def fixtureAppt : Appointment :=
  { id := 0, clientId := 20, barberId := 1, serviceType := "corte",
    appointmentDate := "2025-06-02", appointmentTime := "08:00",
    status := .SCHEDULED, notes := none, price := none }

/-- A store in which slot (barbeiro 1, 2025-06-02, 08:00) is already
taken by a non-terminal appointment. -/
def conflictStore : Store :=
  { emptyStore with barbeiros := [fixtureBarb],
                    appointments := [fixtureAppt], nextApptId := 1 }

/-- A second client booking the very same slot. -/
def fixtureData : CreateData :=
  { barberId := 1, serviceType := "corte", appointmentDate := "2025-06-02",
    appointmentTime := "08:00", notes := none, price := none }

/-- Invariant carried through a sequence of `COMPLETED` submissions on
appointment `id` of client `cid` with stored price `pr`: the
appointment persists with its client and price, the ledger never
exceeds one increment over `(c0, sp0)`, and while the appointment is
not yet `COMPLETED` the ledger still holds `(c0, sp0)`. -/
def CInv (id cid : Nat) (pr : Option Nat) (c0 sp0 : Nat) (s : Store) : Prop :=
  ∃ b, getAppointment s id = some b ∧ b.clientId = cid ∧ b.price = pr ∧
    ledgerCount s cid ≤ c0 + 1 ∧ ledgerSpent s cid ≤ sp0 + pr.getD 0 ∧
    (b.status ≠ .COMPLETED → ledgerCount s cid = c0 ∧ ledgerSpent s cid = sp0)

/-- A store with an active voucher config requiring 5 services and a
client (id 20) having completed 4. -/
def voucherStore : Store :=
  { emptyStore with
      voucherConfigs := [⟨0, 5, 10, 30, true⟩],
      serviceCounts := [⟨20, 4, 100⟩] }

/-- A `COMPLETED` appointment of client 20 with barbeiro 1, priced 50. -/
def fixtureDone : Appointment :=
  { id := 0, clientId := 20, barberId := 1, serviceType := "corte",
    appointmentDate := "2025-06-02", appointmentTime := "08:00",
    status := .COMPLETED, notes := none, price := some 50 }

/-- A store holding one `COMPLETED` appointment. -/
def completedStore : Store :=
  { emptyStore with barbeiros := [fixtureBarb],
                    appointments := [fixtureDone], nextApptId := 1 }

/-- Business hours with Monday 08:00–18:00 (the scenario of the
spec). -/
def mondayBH : BusinessHours :=
  { monday := some ⟨"08:00", "18:00"⟩
    tuesday := none, wednesday := none, thursday := none, friday := none
    saturday := none, sunday := none }

/-- A store with `mondayBH` configured and no appointments. -/
def mondayStore : Store := { emptyStore with businessHours := some mondayBH }

/-- The 20 expected Monday slots, "08:00" through "17:30". -/
def mondaySlots : List String :=
  ["08:00", "08:30", "09:00", "09:30", "10:00", "10:30", "11:00", "11:30",
   "12:00", "12:30", "13:00", "13:30", "14:00", "14:30", "15:00", "15:30",
   "16:00", "16:30", "17:00", "17:30"]

/-- A `SCHEDULED` appointment dated 2025-06-01 with a pre-existing
note. -/
def staleAppt : Appointment :=
  { id := 3, clientId := 20, barberId := 1, serviceType := "corte",
    appointmentDate := "2025-06-01", appointmentTime := "09:00",
    status := .SCHEDULED, notes := some "obs", price := none }

/-- A `SCHEDULED` appointment dated 2025-07-01 (not yet stale at
2025-06-10). -/
def futureAppt : Appointment :=
  { id := 2, clientId := 21, barberId := 1, serviceType := "corte",
    appointmentDate := "2025-07-01", appointmentTime := "10:00",
    status := .SCHEDULED, notes := none, price := none }

/-- A store holding the stale appointment and a future one. -/
def staleStore : Store :=
  { emptyStore with appointments := [staleAppt, futureAppt], nextApptId := 4 }

/-- An `ACTIVE` voucher of client 20, code "FIDELIDADE7", expiring at
tick 100. -/
def fixtureVoucher : Voucher :=
  { id := 0, userId := 20, configId := 0, code := "FIDELIDADE7",
    status := .ACTIVE, expiryDate := 100, usedAt := none,
    usedAppointmentId := none }

/-- A store holding `fixtureVoucher`. -/
def redeemStore : Store :=
  { emptyStore with vouchers := [fixtureVoucher], nextVoucherId := 1 }

/-- Counts the non-terminal appointments of a store at a given
(staff, date, time) slot. -/
def nonTerminalAt (s : Store) (barberId : Nat) (date time : String) : Nat :=
  (s.appointments.filter (fun a =>
    decide (a.barberId = barberId ∧ a.appointmentDate = date ∧
      a.appointmentTime = time ∧ a.status ≠ .COMPLETED ∧
      a.status ≠ .CANCELLED))).length

end Barbearia

namespace Barbearia

/-! ## Theorems -/

/-- **C1, counterexample.** The claim says a `create` on a slot already
holding a non-terminal appointment fails with `SlotConflict`, so that at
most one booking of a slot succeeds. In the code no conflict check
exists: booking slot (barbeiro 1, 2025-06-02, 08:00) in a store where
that slot is already `SCHEDULED` succeeds, and afterwards the slot holds
two non-terminal appointments. -/
theorem create_double_booking_counterexample :
    (createAppointment conflictStore ⟨21, .CLIENTE⟩ fixtureData).1 =
      .created { id := 1, clientId := 21, barberId := 1, serviceType := "corte",
                 appointmentDate := "2025-06-02", appointmentTime := "08:00",
                 status := .SCHEDULED, notes := none, price := none } ∧
    nonTerminalAt (createAppointment conflictStore ⟨21, .CLIENTE⟩ fixtureData).2
      1 "2025-06-02" "08:00" = 2 := by
  constructor <;> rfl

/-- **C1, amended.** `createAppointment` fails with `BARBEIRO_NOT_FOUND`
when the staff member does not exist and `BARBEIRO_UNAVAILABLE` when the
staff member is marked unavailable; otherwise it succeeds and appends a
new `SCHEDULED` appointment regardless of any existing appointment at
the same (staff, date, time) — no slot-conflict check is performed, so
every booking of an available existing staff member succeeds. -/
theorem createAppointment_cases (s : Store) (u : UserCtx) (d : CreateData) :
    (getBarbeiro s d.barberId = none →
      createAppointment s u d = (.barbeiroNotFound, s)) ∧
    (∀ b, getBarbeiro s d.barberId = some b → b.isAvailable = false →
      createAppointment s u d = (.barbeiroUnavailable, s)) ∧
    (∀ b, getBarbeiro s d.barberId = some b → b.isAvailable = true →
      createAppointment s u d =
        (.created (mkNewAppointment s u d),
          { s with appointments := s.appointments ++ [mkNewAppointment s u d],
                   nextApptId := s.nextApptId + 1 }) ∧
      (mkNewAppointment s u d).status = .SCHEDULED) := by
  refine ⟨fun h => ?_, fun b hb hav => ?_, fun b hb hav => ?_⟩
  · simp [createAppointment, h]
  · simp [createAppointment, hb, hav]
  · simp [createAppointment, hb, hav, mkNewAppointment]

/-- Witness for `createAppointment_cases` at a concrete store: the
barbeiro of `conflictStore` exists and is available, and the call
indeed appends the new `SCHEDULED` appointment. -/
theorem createAppointment_cases_witness :
    createAppointment conflictStore ⟨21, .CLIENTE⟩ fixtureData =
      (.created (mkNewAppointment conflictStore ⟨21, .CLIENTE⟩ fixtureData),
        { conflictStore with
            appointments := conflictStore.appointments ++
              [mkNewAppointment conflictStore ⟨21, .CLIENTE⟩ fixtureData],
            nextApptId := conflictStore.nextApptId + 1 }) ∧
    (mkNewAppointment conflictStore ⟨21, .CLIENTE⟩ fixtureData).status =
      .SCHEDULED :=
  (createAppointment_cases conflictStore ⟨21, .CLIENTE⟩ fixtureData).2.2
    fixtureBarb (by rfl) (by rfl)

/-! ### Helper lemmas on the storage layer -/

/-- `find?` commutes with a map that leaves the tested predicate
unchanged. -/
theorem find?_map_pres {α : Type} (p : α → Bool) (f : α → α)
    (hf : ∀ x, p (f x) = p x) :
    ∀ l : List α, (l.map f).find? p = (l.find? p).map f := by
  intro l
  induction l with
  | nil => rfl
  | cons x xs ih =>
      by_cases hx : p x = true
      · rw [List.map_cons, List.find?_cons_of_pos _ (by rw [hf]; exact hx),
          List.find?_cons_of_pos _ hx]
        rfl
      · rw [List.map_cons, List.find?_cons_of_neg _ (by rw [hf]; exact hx),
          List.find?_cons_of_neg _ hx, ih]

/-- When the left part finds nothing, `find?` over an append searches
the right part. -/
theorem find?_append_of_none {α : Type} (p : α → Bool) (l₁ l₂ : List α)
    (h : l₁.find? p = none) : (l₁ ++ l₂).find? p = l₂.find? p := by
  induction l₁ with
  | nil => rfl
  | cons x xs ih =>
      by_cases hx : p x = true
      · rw [List.find?_cons_of_pos _ hx] at h; exact absurd h (by simp)
      · rw [List.find?_cons_of_neg _ hx] at h
        rw [List.cons_append, List.find?_cons_of_neg _ hx, ih h]

/-- `getAppointment` reads only the appointment table. -/
theorem getAppointment_congr {s t : Store} (h : s.appointments = t.appointments)
    (id : Nat) : getAppointment s id = getAppointment t id := by
  unfold getAppointment; rw [h]

/-- `getClientServiceCount` reads only the service-count table. -/
theorem getClientServiceCount_congr {s t : Store}
    (h : s.serviceCounts = t.serviceCounts) (cid : Nat) :
    getClientServiceCount s cid = getClientServiceCount t cid := by
  unfold getClientServiceCount; rw [h]

/-- `ledgerCount` reads only the service-count table. -/
theorem ledgerCount_congr {s t : Store} (h : s.serviceCounts = t.serviceCounts)
    (cid : Nat) : ledgerCount s cid = ledgerCount t cid := by
  unfold ledgerCount; rw [getClientServiceCount_congr h]

/-- `ledgerSpent` reads only the service-count table. -/
theorem ledgerSpent_congr {s t : Store} (h : s.serviceCounts = t.serviceCounts)
    (cid : Nat) : ledgerSpent s cid = ledgerSpent t cid := by
  unfold ledgerSpent; rw [getClientServiceCount_congr h]

/-- Rewriting a keyed row update as a `find?`-commuting map. -/
theorem find?_updateRow (l : List ClientServiceCount) (cid n t : Nat) :
    (l.map (fun r => if r.userId = cid then
        { r with completedServices := n, totalSpent := t } else r)).find?
      (fun r => r.userId = cid) =
    (l.find? (fun r => r.userId = cid)).map (fun r =>
      if r.userId = cid then
        { r with completedServices := n, totalSpent := t } else r) :=
  find?_map_pres _ _ (fun r => by by_cases h : r.userId = cid <;> simp [h]) l

/-- After `updateClientServiceCount` the client's row holds exactly the
written values. -/
theorem getClientServiceCount_update (s : Store) (cid n t : Nat) :
    getClientServiceCount (updateClientServiceCount s cid n t) cid =
      some ⟨cid, n, t⟩ := by
  cases hc : getClientServiceCount s cid with
  | none =>
      have hrw : updateClientServiceCount s cid n t =
          { s with serviceCounts := s.serviceCounts ++ [⟨cid, n, t⟩] } := by
        unfold updateClientServiceCount; rw [hc]
      rw [hrw]
      unfold getClientServiceCount at hc ⊢
      exact (find?_append_of_none _ _ _ hc).trans (by simp)
  | some c =>
      have hcid : c.userId = cid := by
        have := List.find?_some hc
        simpa [getClientServiceCount] using List.find?_some hc
      have hrw : updateClientServiceCount s cid n t =
          { s with serviceCounts := s.serviceCounts.map (fun r =>
              if r.userId = cid then
                { r with completedServices := n, totalSpent := t } else r) } := by
        unfold updateClientServiceCount; rw [hc]
      rw [hrw]
      unfold getClientServiceCount at hc ⊢
      dsimp only
      rw [find?_updateRow, hc]
      simp [hcid]

/-- `updateClientServiceCount` touches only the service-count table. -/
theorem updateClientServiceCount_rest (s : Store) (cid n t : Nat) :
    (updateClientServiceCount s cid n t).vouchers = s.vouchers ∧
    (updateClientServiceCount s cid n t).voucherConfigs = s.voucherConfigs ∧
    (updateClientServiceCount s cid n t).appointments = s.appointments := by
  unfold updateClientServiceCount
  cases getClientServiceCount s cid <;> exact ⟨rfl, rfl, rfl⟩

/-- `checkAndCreateVoucher` touches only the voucher table. -/
theorem checkAndCreateVoucher_rest (s : Store) (cid k now : Nat) :
    (checkAndCreateVoucher s cid k now).serviceCounts = s.serviceCounts ∧
    (checkAndCreateVoucher s cid k now).appointments = s.appointments := by
  unfold checkAndCreateVoucher
  cases getActiveVoucherConfig s with
  | none => exact ⟨rfl, rfl⟩
  | some cfg =>
      dsimp only
      split <;> exact ⟨rfl, rfl⟩

/-- `recordCompletedService` unfolded: write the incremented row, then
run the voucher check on the post-increment count. -/
theorem recordCompletedService_eq (s : Store) (cid amt now : Nat) :
    recordCompletedService s cid amt now =
      checkAndCreateVoucher
        (updateClientServiceCount s cid (ledgerCount s cid + 1)
          (ledgerSpent s cid + amt))
        cid (ledgerCount s cid + 1) now := rfl

/-- The ledger row after `recordCompletedService`: count incremented by
one, amount added to the spend. -/
theorem getClientServiceCount_record (s : Store) (cid amt now : Nat) :
    getClientServiceCount (recordCompletedService s cid amt now) cid =
      some ⟨cid, ledgerCount s cid + 1, ledgerSpent s cid + amt⟩ := by
  rw [recordCompletedService_eq,
    getClientServiceCount_congr (checkAndCreateVoucher_rest _ _ _ _).1,
    getClientServiceCount_update]

/-- `recordCompletedService` increments the count by exactly one. -/
theorem ledgerCount_record (s : Store) (cid amt now : Nat) :
    ledgerCount (recordCompletedService s cid amt now) cid =
      ledgerCount s cid + 1 := by
  unfold ledgerCount
  rw [getClientServiceCount_record]
  rfl

/-- `recordCompletedService` adds the paid amount to the spend. -/
theorem ledgerSpent_record (s : Store) (cid amt now : Nat) :
    ledgerSpent (recordCompletedService s cid amt now) cid =
      ledgerSpent s cid + amt := by
  unfold ledgerSpent
  rw [getClientServiceCount_record]
  rfl

/-- `recordCompletedService` leaves the appointment table unchanged. -/
theorem recordCompletedService_appointments (s : Store) (cid amt now : Nat) :
    (recordCompletedService s cid amt now).appointments = s.appointments := by
  rw [recordCompletedService_eq]
  exact (checkAndCreateVoucher_rest _ _ _ _).2.trans
    (updateClientServiceCount_rest _ _ _ _).2.2

/-- **C2, counterexample.** The claim says `COMPLETED` and `CANCELLED`
are terminal for every actor. In the code only CLIENTE actors are
blocked, and only on `COMPLETED`: an ADMIN resubmitting `SCHEDULED` on
the `COMPLETED` appointment of `completedStore` moves its status back
to `SCHEDULED`. -/
theorem admin_reopens_completed_counterexample :
    (getAppointment completedStore 0).map Appointment.status =
      some .COMPLETED ∧
    (getAppointment (updateAppointment completedStore ⟨1, .ADMIN⟩ 0
        ⟨some .SCHEDULED, none, none⟩ 0).2 0).map Appointment.status =
      some .SCHEDULED := by
  constructor <;> rfl

/-- **C2, amended.** Terminal-status protection holds only for CLIENTE
actors on `COMPLETED` appointments: for every appointment whose status
is `COMPLETED` and every actor of role CLIENTE, `updateAppointment`
fails with `UPDATE_PERMISSION_DENIED` and leaves the store (hence the
appointment's status) unchanged. Other roles, and the `CANCELLED`
status, are not protected. -/
theorem completed_immutable_for_cliente (s : Store) (u : UserCtx) (id : Nat)
    (upd : UpdateData) (now : Nat) (a : Appointment)
    (ha : getAppointment s id = some a) (hst : a.status = .COMPLETED)
    (hr : u.role = .CLIENTE) :
    updateAppointment s u id upd now = (.permissionDenied, s) := by
  have hperm : checkUpdatePermissions s u a = false := by
    unfold checkUpdatePermissions
    rw [hr]
    simp [hst]
  unfold updateAppointment
  rw [ha]
  simp [hperm]

/-- Witness for `completed_immutable_for_cliente`: the owning client
itself cannot touch its `COMPLETED` appointment. -/
theorem completed_immutable_for_cliente_witness :
    updateAppointment completedStore ⟨20, .CLIENTE⟩ 0
      ⟨some .SCHEDULED, none, none⟩ 0 = (.permissionDenied, completedStore) :=
  completed_immutable_for_cliente completedStore ⟨20, .CLIENTE⟩ 0
    ⟨some .SCHEDULED, none, none⟩ 0 fixtureDone (by rfl) (by rfl) (by rfl)

/-- **C4.** The ledger update (`recordCompletedService`): the client's
row afterwards holds the old count (0 when the row was absent) plus
exactly 1 and the old spend plus the amount paid; a voucher is issued
— the voucher table grows by one `ACTIVE` voucher owned by the client —
exactly when an active `VoucherConfig` exists and the post-increment
count is an exact multiple of `servicesRequired`; in particular the
very first service reaching the threshold (post-increment count equal
to `servicesRequired`) issues a voucher. -/
theorem recordCompletedService_spec (s : Store) (cid amt now : Nat) :
    getClientServiceCount (recordCompletedService s cid amt now) cid =
      some ⟨cid, ledgerCount s cid + 1, ledgerSpent s cid + amt⟩ ∧
    ((∃ v, (recordCompletedService s cid amt now).vouchers =
        s.vouchers ++ [v] ∧ v.userId = cid ∧ v.status = .ACTIVE) ↔
      (∃ cfg, getActiveVoucherConfig s = some cfg ∧
        (ledgerCount s cid + 1) % cfg.servicesRequired = 0)) ∧
    (∀ cfg, getActiveVoucherConfig s = some cfg →
      ledgerCount s cid + 1 = cfg.servicesRequired →
      ∃ v, (recordCompletedService s cid amt now).vouchers =
        s.vouchers ++ [v] ∧ v.userId = cid ∧ v.status = .ACTIVE) := by
  have hrow := getClientServiceCount_record s cid amt now
  have hcfg : getActiveVoucherConfig
      (updateClientServiceCount s cid (ledgerCount s cid + 1)
        (ledgerSpent s cid + amt)) = getActiveVoucherConfig s := by
    unfold getActiveVoucherConfig
    rw [(updateClientServiceCount_rest s cid _ _).2.1]
  have hvch : (updateClientServiceCount s cid (ledgerCount s cid + 1)
      (ledgerSpent s cid + amt)).vouchers = s.vouchers :=
    (updateClientServiceCount_rest s cid _ _).1
  have hiff : (∃ v, (recordCompletedService s cid amt now).vouchers =
        s.vouchers ++ [v] ∧ v.userId = cid ∧ v.status = .ACTIVE) ↔
      (∃ cfg, getActiveVoucherConfig s = some cfg ∧
        (ledgerCount s cid + 1) % cfg.servicesRequired = 0) := by
    rw [recordCompletedService_eq]
    unfold checkAndCreateVoucher
    rw [hcfg]
    cases hac : getActiveVoucherConfig s with
    | none =>
        dsimp only
        rw [hvch]
        constructor
        · rintro ⟨v, hv, -, -⟩
          exact absurd hv (by simp)
        · rintro ⟨cfg, hcfg2, -⟩
          cases hcfg2
    | some cfg =>
        dsimp only
        by_cases hmod : (ledgerCount s cid + 1) % cfg.servicesRequired = 0
        · rw [if_pos hmod]
          dsimp only
          rw [hvch]
          constructor
          · intro _
            exact ⟨cfg, rfl, hmod⟩
          · intro _
            exact ⟨_, rfl, rfl, rfl⟩
        · rw [if_neg hmod]
          rw [hvch]
          constructor
          · rintro ⟨v, hv, -, -⟩
            exact absurd hv (by simp)
          · rintro ⟨cfg2, hcfg2, hmod2⟩
            cases hcfg2
            exact absurd hmod2 hmod
  refine ⟨hrow, hiff, fun cfg hac hthr => ?_⟩
  exact hiff.mpr ⟨cfg, hac, by rw [hthr]; exact Nat.mod_self _⟩

/-- Witness for `recordCompletedService_spec`: client 20 of
`voucherStore` has 4 completed services against an active threshold of
5, so the fifth service increments the row to 5 and issues an `ACTIVE`
voucher. -/
theorem recordCompletedService_spec_witness :
    getClientServiceCount (recordCompletedService voucherStore 20 50 7) 20 =
      some ⟨20, ledgerCount voucherStore 20 + 1, ledgerSpent voucherStore 20 + 50⟩ ∧
    (∃ v, (recordCompletedService voucherStore 20 50 7).vouchers =
      voucherStore.vouchers ++ [v] ∧ v.userId = 20 ∧ v.status = .ACTIVE) :=
  ⟨(recordCompletedService_spec voucherStore 20 50 7).1,
   (recordCompletedService_spec voucherStore 20 50 7).2.2
     ⟨0, 5, 10, 30, true⟩ (by rfl) (by rfl)⟩

/-! ### Behaviour of one `updateAppointment` call -/

/-- A permission-denied update leaves the store untouched. -/
theorem updateAppointment_perm_false (s : Store) (u : UserCtx) (id : Nat)
    (ud : UpdateData) (now : Nat) (b : Appointment)
    (hb : getAppointment s id = some b)
    (hperm : checkUpdatePermissions s u b = false) :
    updateAppointment s u id ud now = (.permissionDenied, s) := by
  unfold updateAppointment
  rw [hb]
  simp [hperm]

/-- An authorized update runs the ledger block exactly on a `COMPLETED`
submission over a non-`COMPLETED` row, then maps the partial update
over the appointment table. -/
theorem updateAppointment_perm_true (s : Store) (u : UserCtx) (id : Nat)
    (ud : UpdateData) (now : Nat) (b : Appointment)
    (hb : getAppointment s id = some b)
    (hperm : checkUpdatePermissions s u b = true) :
    updateAppointment s u id ud now =
      (.updated (applyUpdates ud b),
        { (if ud.status = some .COMPLETED ∧ b.status ≠ .COMPLETED then
             recordCompletedService s b.clientId (b.price.getD 0) now
           else s) with
            appointments :=
              (if ud.status = some .COMPLETED ∧ b.status ≠ .COMPLETED then
                 recordCompletedService s b.clientId (b.price.getD 0) now
               else s).appointments.map (fun x =>
                if x.id = id then applyUpdates ud x else x) }) := by
  unfold updateAppointment
  rw [hb]
  simp [hperm]

/-- Mapping the row update over the table updates exactly the row the
lookup found. -/
theorem find?_map_applyUpdates (l : List Appointment) (id : Nat)
    (ud : UpdateData) (b : Appointment)
    (hb : l.find? (fun a => a.id = id) = some b) :
    (l.map (fun x => if x.id = id then applyUpdates ud x else x)).find?
      (fun a => a.id = id) = some (applyUpdates ud b) := by
  have hid : b.id = id := by simpa using List.find?_some hb
  have hpres : ∀ x : Appointment,
      (fun a : Appointment => decide (a.id = id))
        (if x.id = id then applyUpdates ud x else x) =
      (fun a : Appointment => decide (a.id = id)) x := by
    intro x
    by_cases h : x.id = id <;> simp [h, applyUpdates]
  rw [find?_map_pres _ _ hpres, hb]
  simp [hid]

/-- `COMPLETED` submitted on an already-`COMPLETED` row: the ledger and
voucher tables are untouched, the row stays `COMPLETED`. -/
theorem completed_step_done (s : Store) (u : UserCtx) (id now : Nat)
    (b : Appointment) (hb : getAppointment s id = some b)
    (hperm : checkUpdatePermissions s u b = true)
    (hdone : b.status = .COMPLETED) :
    (updateAppointment s u id completedUpd now).2.serviceCounts = s.serviceCounts ∧
    (updateAppointment s u id completedUpd now).2.vouchers = s.vouchers ∧
    getAppointment (updateAppointment s u id completedUpd now).2 id =
      some (applyUpdates completedUpd b) := by
  have hcond : ¬ (completedUpd.status = some .COMPLETED ∧
      b.status ≠ .COMPLETED) := fun h => h.2 hdone
  rw [updateAppointment_perm_true s u id completedUpd now b hb hperm,
    if_neg hcond]
  refine ⟨rfl, rfl, ?_⟩
  have hb' : s.appointments.find? (fun a => a.id = id) = some b := hb
  exact find?_map_applyUpdates s.appointments id completedUpd b hb'

/-- `COMPLETED` submitted on a not-yet-`COMPLETED` row: the ledger and
voucher tables are those of `recordCompletedService`, the row moves to
`COMPLETED`. -/
theorem completed_step_not_done (s : Store) (u : UserCtx) (id now : Nat)
    (b : Appointment) (hb : getAppointment s id = some b)
    (hperm : checkUpdatePermissions s u b = true)
    (hnd : b.status ≠ .COMPLETED) :
    (updateAppointment s u id completedUpd now).2.serviceCounts =
      (recordCompletedService s b.clientId (b.price.getD 0) now).serviceCounts ∧
    (updateAppointment s u id completedUpd now).2.vouchers =
      (recordCompletedService s b.clientId (b.price.getD 0) now).vouchers ∧
    getAppointment (updateAppointment s u id completedUpd now).2 id =
      some (applyUpdates completedUpd b) := by
  have hcond : completedUpd.status = some .COMPLETED ∧
      b.status ≠ .COMPLETED := ⟨rfl, hnd⟩
  rw [updateAppointment_perm_true s u id completedUpd now b hb hperm,
    if_pos hcond]
  refine ⟨rfl, rfl, ?_⟩
  have hb' : (recordCompletedService s b.clientId (b.price.getD 0)
      now).appointments.find? (fun a => a.id = id) = some b := by
    rw [recordCompletedService_appointments]
    exact hb
  exact find?_map_applyUpdates _ id completedUpd b hb'

/-- One `COMPLETED` submission preserves `CInv`. -/
theorem CInv_step (id cid : Nat) (pr : Option Nat) (c0 sp0 : Nat) (s : Store)
    (h : CInv id cid pr c0 sp0 s) (u : UserCtx) (now : Nat) :
    CInv id cid pr c0 sp0 (updateAppointment s u id completedUpd now).2 := by
  obtain ⟨b, hb, hcid, hpr, hc, hsp, hterm⟩ := h
  cases hperm : checkUpdatePermissions s u b with
  | false =>
      rw [updateAppointment_perm_false s u id completedUpd now b hb hperm]
      exact ⟨b, hb, hcid, hpr, hc, hsp, hterm⟩
  | true =>
      by_cases hdone : b.status = .COMPLETED
      · obtain ⟨hsc, hvc, hga⟩ := completed_step_done s u id now b hb hperm hdone
        refine ⟨applyUpdates completedUpd b, hga, hcid, hpr, ?_, ?_, ?_⟩
        · rw [ledgerCount_congr hsc]; exact hc
        · rw [ledgerSpent_congr hsc]; exact hsp
        · intro hne; exact absurd rfl hne
      · obtain ⟨hsc, hvc, hga⟩ :=
          completed_step_not_done s u id now b hb hperm hdone
        obtain ⟨hc0, hsp0⟩ := hterm hdone
        refine ⟨applyUpdates completedUpd b, hga, hcid, hpr, ?_, ?_, ?_⟩
        · rw [ledgerCount_congr hsc, hcid, ledgerCount_record, hc0]
        · rw [ledgerSpent_congr hsc, hcid, hpr, ledgerSpent_record, hsp0]
        · intro hne; exact absurd rfl hne

/-- `CInv` is preserved by every sequence of `COMPLETED` submissions. -/
theorem CInv_calls (id cid : Nat) (pr : Option Nat) (c0 sp0 : Nat) :
    ∀ (calls : List (UserCtx × Nat)) (s : Store), CInv id cid pr c0 sp0 s →
      CInv id cid pr c0 sp0 (applyCompletedCalls id s calls) := by
  intro calls
  induction calls with
  | nil => intro s h; exact h
  | cons c cs ih =>
      intro s h
      exact ih _ (CInv_step id cid pr c0 sp0 s h c.1 c.2)

/-- **C3.** Resubmitting `COMPLETED` on an already-`COMPLETED`
appointment is a no-op with respect to the ledger (service counts and
vouchers unchanged), and over any sequence of `updateStatus(...,
COMPLETED)` calls on one appointment — by any actors at any times —
the owning client's completed-service count grows by at most 1 and the
cumulative spend by at most the appointment's price, in total. -/
theorem completed_ledger_at_most_once (s : Store) (u : UserCtx)
    (id now : Nat) (a : Appointment) (ha : getAppointment s id = some a) :
    (a.status = .COMPLETED →
      (updateAppointment s u id completedUpd now).2.serviceCounts =
        s.serviceCounts ∧
      (updateAppointment s u id completedUpd now).2.vouchers = s.vouchers) ∧
    (∀ calls : List (UserCtx × Nat),
      ledgerCount (applyCompletedCalls id s calls) a.clientId ≤
        ledgerCount s a.clientId + 1 ∧
      ledgerSpent (applyCompletedCalls id s calls) a.clientId ≤
        ledgerSpent s a.clientId + a.price.getD 0) := by
  constructor
  · intro hdone
    cases hperm : checkUpdatePermissions s u a with
    | false =>
        rw [updateAppointment_perm_false s u id completedUpd now a ha hperm]
        exact ⟨rfl, rfl⟩
    | true =>
        obtain ⟨h1, h2, -⟩ := completed_step_done s u id now a ha hperm hdone
        exact ⟨h1, h2⟩
  · intro calls
    have hinv : CInv id a.clientId a.price (ledgerCount s a.clientId)
        (ledgerSpent s a.clientId) s :=
      ⟨a, ha, rfl, rfl, Nat.le_succ _, Nat.le_add_right _ _,
        fun _ => ⟨rfl, rfl⟩⟩
    obtain ⟨b, -, -, -, hc, hsp, -⟩ :=
      CInv_calls id a.clientId a.price _ _ calls s hinv
    exact ⟨hc, hsp⟩

/-- Witness for `completed_ledger_at_most_once` on `completedStore`:
an ADMIN resubmits `COMPLETED` on the already-`COMPLETED` appointment 0
(ledger untouched) and a one-call sequence respects the bounds. -/
theorem completed_ledger_at_most_once_witness :
    ((updateAppointment completedStore ⟨1, .ADMIN⟩ 0 completedUpd 3).2.serviceCounts =
        completedStore.serviceCounts ∧
      (updateAppointment completedStore ⟨1, .ADMIN⟩ 0 completedUpd 3).2.vouchers =
        completedStore.vouchers) ∧
    (ledgerCount (applyCompletedCalls 0 completedStore [(⟨1, .ADMIN⟩, 9)])
        fixtureDone.clientId ≤ ledgerCount completedStore fixtureDone.clientId + 1 ∧
      ledgerSpent (applyCompletedCalls 0 completedStore [(⟨1, .ADMIN⟩, 9)])
        fixtureDone.clientId ≤ ledgerSpent completedStore fixtureDone.clientId +
          fixtureDone.price.getD 0) :=
  ⟨(completed_ledger_at_most_once completedStore ⟨1, .ADMIN⟩ 0 3 fixtureDone
      (by rfl)).1 (by rfl),
   (completed_ledger_at_most_once completedStore ⟨1, .ADMIN⟩ 0 3 fixtureDone
      (by rfl)).2 [(⟨1, .ADMIN⟩, 9)]⟩

/-- **C10.** In `deleteAppointment` the existence check precedes the
role check: a non-administrator deleting a missing appointment gets
`APPOINTMENT_NOT_FOUND` (never `DELETE_PERMISSION_DENIED`), and
`DELETE_PERMISSION_DENIED` is answered only when the appointment
exists. -/
theorem delete_existence_before_role (s : Store) (u : UserCtx) (id : Nat) :
    (u.role ≠ .ADMIN → u.role ≠ .SUPER_ADMIN → getAppointment s id = none →
      deleteAppointment s u id = (.apptNotFound, s)) ∧
    ((deleteAppointment s u id).1 = .permissionDenied →
      ∃ a, getAppointment s id = some a) := by
  constructor
  · intro _ _ hnone
    simp [deleteAppointment, hnone]
  · intro h
    unfold deleteAppointment at h
    cases hga : getAppointment s id with
    | none => rw [hga] at h; simp at h
    | some a => exact ⟨a, by simp [hga]⟩

/-- Witness for `delete_existence_before_role`: a CLIENTE deleting the
missing appointment 7 of the empty store gets `APPOINTMENT_NOT_FOUND`,
and a CLIENTE deleting the existing appointment 0 of `conflictStore`
is denied, which certifies existence. -/
theorem delete_existence_before_role_witness :
    deleteAppointment emptyStore ⟨5, .CLIENTE⟩ 7 = (.apptNotFound, emptyStore) ∧
    (∃ a, getAppointment conflictStore 0 = some a) :=
  ⟨(delete_existence_before_role emptyStore ⟨5, .CLIENTE⟩ 7).1
      (by decide) (by decide) (by rfl),
   (delete_existence_before_role conflictStore ⟨5, .CLIENTE⟩ 0).2
      (by rfl)⟩

/-! ### Lexicographic string order -/

/-- `strLtAux` is irreflexive. -/
theorem strLtAux_irrefl : ∀ l : List Char, strLtAux l l = false := by
  intro l
  induction l with
  | nil => rfl
  | cons a as ih => simp [strLtAux, ih]

/-- `strLe` is reflexive. -/
theorem strLe_refl (s : String) : strLe s s = true := by
  unfold strLe strLt
  rw [strLtAux_irrefl]
  rfl

/-- `strLtAux` is antisymmetric: two lists neither of which precedes
the other are equal. -/
theorem strLtAux_antisymm : ∀ as bs : List Char,
    strLtAux as bs = false → strLtAux bs as = false → as = bs := by
  intro as
  induction as with
  | nil =>
      intro bs h1 _
      cases bs with
      | nil => rfl
      | cons b bs2 => simp [strLtAux] at h1
  | cons a as2 ih =>
      intro bs h1 h2
      cases bs with
      | nil => simp [strLtAux] at h2
      | cons b bs2 =>
          by_cases hab : a < b
          · simp [strLtAux, hab] at h1
          · by_cases hba : b < a
            · simp [strLtAux, hba] at h2
            · have heq : a = b := le_antisymm (not_lt.mp hba) (not_lt.mp hab)
              subst heq
              simp only [strLtAux, if_neg hab, if_pos rfl] at h1 h2
              rw [ih bs2 h1 h2]

/-- Antisymmetry of the SQL text order. -/
theorem strLe_antisymm (s t : String) (h1 : strLe s t = true)
    (h2 : strLe t s = true) : s = t := by
  unfold strLe at h1 h2
  have h1f : strLt t s = false := by simpa using h1
  have h2f : strLt s t = false := by simpa using h2
  unfold strLt at h1f h2f
  cases s with
  | mk ds =>
      cases t with
      | mk dt =>
          have := strLtAux_antisymm ds dt h2f h1f
          cases this
          rfl

/-! ### The 30-minute slot generator -/

/-- Membership in the fuelled slot loop, for sufficient fuel: exactly
the marks `current + 30k` strictly below `finish`. -/
theorem genSlotsAux_mem (finish m : Nat) :
    ∀ (fuel current : Nat), finish - current ≤ fuel →
      (m ∈ genSlotsAux fuel current finish ↔
        ((∃ k, m = current + 30 * k) ∧ m < finish)) := by
  intro fuel
  induction fuel with
  | zero =>
      intro current h
      constructor
      · intro hm
        exact absurd hm (by simp [genSlotsAux])
      · rintro ⟨⟨k, rfl⟩, hlt⟩
        exact absurd hlt (by omega)
  | succ fuel ih =>
      intro current h
      unfold genSlotsAux
      by_cases hc : current < finish
      · rw [if_pos hc, List.mem_cons, ih (current + 30) (by omega)]
        constructor
        · rintro (rfl | ⟨⟨k, rfl⟩, hlt⟩)
          · exact ⟨⟨0, by omega⟩, hc⟩
          · exact ⟨⟨k + 1, by omega⟩, hlt⟩
        · rintro ⟨⟨k, rfl⟩, hlt⟩
          cases k with
          | zero => left; omega
          | succ k2 => right; exact ⟨⟨k2, by omega⟩, hlt⟩
      · rw [if_neg hc]
        constructor
        · intro hm
          exact absurd hm (by simp)
        · rintro ⟨⟨k, rfl⟩, hlt⟩
          exact absurd hlt (by omega)

/-- The slot minutes are exactly the 30-minute marks from the open
time up to, and excluding, the close time. -/
theorem mem_genSlots (current finish m : Nat) :
    m ∈ genSlots current finish ↔
      ((∃ k, m = current + 30 * k) ∧ m < finish) :=
  genSlotsAux_mem finish m (finish - current) current (Nat.le_refl _)

/-- The fuelled slot loop produces a strictly increasing sequence. -/
theorem genSlotsAux_pairwise (finish : Nat) :
    ∀ (fuel current : Nat), finish - current ≤ fuel →
      List.Pairwise (fun a b => a < b) (genSlotsAux fuel current finish) := by
  intro fuel
  induction fuel with
  | zero => intro current _; exact List.Pairwise.nil
  | succ fuel ih =>
      intro current h
      unfold genSlotsAux
      by_cases hc : current < finish
      · rw [if_pos hc]
        refine List.Pairwise.cons ?_ (ih (current + 30) (by omega))
        intro m hm
        obtain ⟨⟨k, rfl⟩, -⟩ :=
          (genSlotsAux_mem finish m fuel (current + 30) (by omega)).mp hm
        omega
      · rw [if_neg hc]
        exact List.Pairwise.nil

/-- The slot sequence is ordered (strictly increasing minutes). -/
theorem genSlots_pairwise (current finish : Nat) :
    List.Pairwise (fun a b => a < b) (genSlots current finish) :=
  genSlotsAux_pairwise finish (finish - current) current (Nat.le_refl _)

/-- Filtering a mapped list along the mapped predicate. -/
theorem filter_map_eq {α β : Type} (l : List α) (f : α → β) (p : β → Bool) :
    (l.map f).filter p = (l.filter (fun m => p (f m))).map f := by
  induction l with
  | nil => rfl
  | cons x xs ih => by_cases h : p (f x) <;> simp [h, ih]

/-! ### C6: availability with no configured business hours -/

/-- **C6, counterexample.** The claim says the availability computation
falls back to the default weekly schedule when no BusinessHours row
exists and still produces slots. In the code `getAvailableTimeSlots`
answers the 500 error `BUSINESS_HOURS_NOT_CONFIGURED` instead — for
the Monday 2025-06-02 on an unconfigured store no slot response is
produced. -/
theorem availability_no_fallback_counterexample :
    getAvailableTimeSlots emptyStore (some "2025-06-02") none =
      .notConfigured ∧
    ∀ avail busy, SlotsResult.notConfigured ≠ SlotsResult.ok avail busy :=
  ⟨rfl, fun _ _ h => SlotsResult.noConfusion h⟩

/-- **C6, amended.** When no BusinessHours configuration exists,
`getAvailableTimeSlots` fails with `BUSINESS_HOURS_NOT_CONFIGURED` for
every date; the hard-coded default weekly schedule (Monday–Friday
08:00–18:00, Saturday 08:00–16:00, Sunday closed) is returned only by
the `getBusinessHours` read endpoint, flagged as default. -/
theorem no_config_availability_error (s : Store)
    (h : s.businessHours = none) :
    (∀ d bid, getAvailableTimeSlots s (some d) bid = .notConfigured) ∧
    getBusinessHours s = (defaultBusinessHours, true) ∧
    defaultBusinessHours.monday = some ⟨"08:00", "18:00"⟩ ∧
    defaultBusinessHours.saturday = some ⟨"08:00", "16:00"⟩ ∧
    defaultBusinessHours.sunday = none := by
  refine ⟨fun d bid => ?_, ?_, rfl, rfl, rfl⟩
  · unfold getAvailableTimeSlots
    rw [h]
  · unfold getBusinessHours
    rw [h]

/-- Witness for `no_config_availability_error` on the empty store. -/
theorem no_config_availability_error_witness :
    getAvailableTimeSlots emptyStore (some "2025-06-02") none =
      .notConfigured ∧
    getBusinessHours emptyStore = (defaultBusinessHours, true) :=
  ⟨(no_config_availability_error emptyStore (by rfl)).1 "2025-06-02" none,
   (no_config_availability_error emptyStore (by rfl)).2.1⟩

/-! ### C7: the availability calculation on an open or closed day -/

/-- The busy slots are exactly the times of that date's appointments,
restricted to the requested barbeiro when one is given, in a
non-terminal working status. -/
theorem mem_busySlotsOf (s : Store) (date : String) (bid : Option Nat)
    (t : String) :
    t ∈ busySlotsOf s date bid ↔
      ∃ a, a ∈ s.appointments ∧ a.appointmentDate = date ∧
        (∀ b, bid = some b → a.barberId = b) ∧
        (a.status = .SCHEDULED ∨ a.status = .CONFIRMED ∨
          a.status = .IN_PROGRESS) ∧
        t = a.appointmentTime := by
  unfold busySlotsOf getAppointmentsByDateRange
  simp only [List.mem_map, List.mem_filter, Bool.and_eq_true,
    decide_eq_true_eq]
  constructor
  · rintro ⟨a, ⟨⟨⟨ha, hd1, hd2⟩, hbid⟩, hstat⟩, rfl⟩
    refine ⟨a, ha, strLe_antisymm _ _ hd2 hd1, ?_, hstat, rfl⟩
    intro b hb
    rw [hb] at hbid
    simpa using hbid
  · rintro ⟨a, ha, hdate, hbid, hstat, rfl⟩
    refine ⟨a, ⟨⟨⟨ha, ?_, ?_⟩, ?_⟩, hstat⟩, rfl⟩
    · rw [hdate]; exact strLe_refl date
    · rw [hdate]; exact strLe_refl date
    · cases bid with
      | none => rfl
      | some b => simpa using hbid b rfl

/-- **C7.** On a date whose weekday is configured open,
`getAvailableTimeSlots` answers the ordered 30-minute slot sequence
from the open time up to but excluding the close time, minus the busy
times (that date's appointments in `SCHEDULED`/`CONFIRMED`/
`IN_PROGRESS`, optionally restricted to one barbeiro); a closed
weekday answers the empty-slots response; and concretely, Monday
2025-06-02 with hours 08:00–18:00 and no appointments yields the 20
slots "08:00" … "17:30". -/
theorem availability_slots_spec (s : Store) (bh : BusinessHours)
    (date : String) (bid : Option Nat) (y mo dy : Nat)
    (hbh : s.businessHours = some bh)
    (hpd : parseDate date = some (y, mo, dy)) :
    (dayHoursFor bh (dayOfWeekJS y mo dy) = none →
      getAvailableTimeSlots s (some date) bid = .closed) ∧
    (∀ oh, dayHoursFor bh (dayOfWeekJS y mo dy) = some oh →
      getAvailableTimeSlots s (some date) bid =
        .ok (((genSlots (parseTime oh.start) (parseTime oh.finish)).filter
            (fun mi => ! (busySlotsOf s date bid).contains
              (formatTime mi))).map formatTime)
          (busySlotsOf s date bid) ∧
      List.Pairwise (fun a b => a < b)
        ((genSlots (parseTime oh.start) (parseTime oh.finish)).filter
          (fun mi => ! (busySlotsOf s date bid).contains (formatTime mi))) ∧
      (∀ mi, mi ∈ (genSlots (parseTime oh.start)
          (parseTime oh.finish)).filter
            (fun mi => ! (busySlotsOf s date bid).contains
              (formatTime mi)) ↔
        ((∃ k, mi = parseTime oh.start + 30 * k) ∧
          mi < parseTime oh.finish ∧
          (busySlotsOf s date bid).contains (formatTime mi) = false)) ∧
      (∀ t, t ∈ busySlotsOf s date bid ↔
        ∃ a, a ∈ s.appointments ∧ a.appointmentDate = date ∧
          (∀ b, bid = some b → a.barberId = b) ∧
          (a.status = .SCHEDULED ∨ a.status = .CONFIRMED ∨
            a.status = .IN_PROGRESS) ∧
          t = a.appointmentTime)) ∧
    getAvailableTimeSlots mondayStore (some "2025-06-02") none =
      .ok mondaySlots [] ∧
    mondaySlots.length = 20 := by
  refine ⟨fun hnone => ?_, fun oh hoh => ⟨?_, ?_, ?_, ?_⟩,
    by decide, by decide⟩
  · unfold getAvailableTimeSlots
    dsimp only
    rw [hbh]
    dsimp only
    rw [hpd]
    dsimp only
    rw [hnone]
  · unfold getAvailableTimeSlots
    dsimp only
    rw [hbh]
    dsimp only
    rw [hpd]
    dsimp only
    rw [hoh]
    dsimp only
    unfold generateTimeSlots
    rw [filter_map_eq]
  · exact (genSlots_pairwise _ _).filter _
  · intro mi
    simp only [List.mem_filter, mem_genSlots, Bool.not_eq_eq_eq_not,
      Bool.not_true, and_assoc]
  · intro t
    exact mem_busySlotsOf s date bid t

/-- Witness for `availability_slots_spec`: the Monday store has
configured hours, Monday resolves to 08:00–18:00, and the closed-form
answer matches. -/
theorem availability_slots_spec_witness :
    getAvailableTimeSlots mondayStore (some "2025-06-02") none =
      .ok (((genSlots (parseTime "08:00") (parseTime "18:00")).filter
          (fun mi => ! (busySlotsOf mondayStore "2025-06-02" none).contains
            (formatTime mi))).map formatTime)
        (busySlotsOf mondayStore "2025-06-02" none) :=
  ((availability_slots_spec mondayStore mondayBH "2025-06-02" none 2025 6 2
      (by rfl) (by rfl)).2.1 ⟨"08:00", "18:00"⟩ (by rfl)).1

/-! ### C8: the maintenance sweep -/

/-- After one cleanup step no appointment is still eligible: an
eligible row was moved to `CANCELLED`, the rest never were eligible. -/
theorem expireStep_not_eligible (today : String) (a : Appointment) :
    ¬ ((expireStep today a).status = .SCHEDULED ∧
        strLt (expireStep today a).appointmentDate today = true) := by
  unfold expireStep
  by_cases h : a.status = .SCHEDULED ∧ strLt a.appointmentDate today = true
  · rw [if_pos h]
    rintro ⟨hs, -⟩
    exact Status.noConfusion hs
  · rw [if_neg h]
    exact h

/-- A non-eligible appointment is untouched by the cleanup step. -/
theorem expireStep_of_not_eligible (today : String) (x : Appointment)
    (h : ¬ (x.status = .SCHEDULED ∧ strLt x.appointmentDate today = true)) :
    expireStep today x = x := by
  unfold expireStep
  rw [if_neg h]

/-- The cleanup step is idempotent on every appointment. -/
theorem expireStep_idem (today : String) (a : Appointment) :
    expireStep today (expireStep today a) = expireStep today a :=
  expireStep_of_not_eligible today _ (expireStep_not_eligible today a)

/-- **C8.** `expireStale(now)` cancels exactly the `SCHEDULED`
appointments dated strictly before now's date, appending the
auto-cancellation note to their notes; every other appointment is kept
unchanged; afterwards no appointment is eligible any more, and hence a
second consecutive run changes nothing (idempotence). -/
theorem expireStale_spec (today : String) (s : Store) :
    (∀ a, a ∈ s.appointments → a.status = .SCHEDULED →
      strLt a.appointmentDate today = true →
      { a with status := .CANCELLED,
               notes := some ((a.notes.getD "") ++ autoCancelNote) } ∈
        (expireStale today s).appointments) ∧
    (∀ a, a ∈ s.appointments →
      ¬ (a.status = .SCHEDULED ∧ strLt a.appointmentDate today = true) →
      a ∈ (expireStale today s).appointments) ∧
    (∀ b, b ∈ (expireStale today s).appointments →
      ¬ (b.status = .SCHEDULED ∧ strLt b.appointmentDate today = true)) ∧
    expireStale today (expireStale today s) = expireStale today s := by
  refine ⟨fun a ha h1 h2 => ?_, fun a ha hne => ?_, fun b hb => ?_, ?_⟩
  · have hstep : expireStep today a =
        { a with status := .CANCELLED,
                 notes := some ((a.notes.getD "") ++ autoCancelNote) } := by
      unfold expireStep
      rw [if_pos ⟨h1, h2⟩]
    exact hstep ▸ List.mem_map_of_mem (expireStep today) ha
  · have hstep : expireStep today a = a := by
      unfold expireStep
      rw [if_neg hne]
    exact hstep ▸ List.mem_map_of_mem (expireStep today) ha
  · obtain ⟨a, -, rfl⟩ := List.mem_map.mp hb
    exact expireStep_not_eligible today a
  · unfold expireStale
    dsimp only
    rw [List.map_map]
    have hf : expireStep today ∘ expireStep today = expireStep today :=
      funext (fun a => expireStep_idem today a)
    rw [hf]

/-- Witness for `expireStale_spec`: running the sweep at 2025-06-10
over `staleStore` cancels the `SCHEDULED` appointment dated 2025-06-01
with the note appended, keeps the 2025-07-01 appointment, and a second
run is a no-op. -/
theorem expireStale_spec_witness :
    ({ staleAppt with
        status := .CANCELLED
        notes := some ((staleAppt.notes.getD "") ++ autoCancelNote) } :
      Appointment) ∈ (expireStale "2025-06-10" staleStore).appointments ∧
    futureAppt ∈ (expireStale "2025-06-10" staleStore).appointments ∧
    expireStale "2025-06-10" (expireStale "2025-06-10" staleStore) =
      expireStale "2025-06-10" staleStore :=
  ⟨(expireStale_spec "2025-06-10" staleStore).1 staleAppt (by decide)
      (by rfl) (by decide),
   (expireStale_spec "2025-06-10" staleStore).2.1 futureAppt (by decide)
      (by decide),
   (expireStale_spec "2025-06-10" staleStore).2.2.2⟩

/-! ### C9: at most one active voucher config -/

/-- Two members of a list of length at most one coincide. -/
theorem mem_eq_of_length_le_one {α : Type} {l : List α} (h : l.length ≤ 1)
    {a b : α} (ha : a ∈ l) (hb : b ∈ l) : a = b := by
  cases l with
  | nil => cases ha
  | cons x xs =>
      cases xs with
      | nil =>
          have ha2 : a = x := by simpa using ha
          have hb2 : b = x := by simpa using hb
          rw [ha2, hb2]
      | cons y ys => simp at h

/-- After the deactivation step of `configureVouchers`, no config is
active (given the at-most-one-active invariant held before). -/
theorem deactivation_clears_actives (s : Store)
    (h : countActiveConfigs s ≤ 1) :
    ((match getActiveVoucherConfig s with
      | some c => deactivateVoucherConfig s c.id
      | none => s) : Store).voucherConfigs.filter (fun c => c.isActive) =
      [] := by
  cases hac : getActiveVoucherConfig s with
  | none =>
      dsimp only
      rw [List.filter_eq_nil_iff]
      intro c hc
      unfold getActiveVoucherConfig at hac
      simpa using List.find?_eq_none.mp hac c hc
  | some c =>
      dsimp only
      have hac2 : s.voucherConfigs.find? (fun c => c.isActive) = some c := hac
      have hcmem : c ∈ s.voucherConfigs := List.mem_of_find?_eq_some hac2
      have hcact : c.isActive = true := List.find?_some hac2
      rw [List.filter_eq_nil_iff]
      unfold deactivateVoucherConfig
      intro x hx
      obtain ⟨y, hy, rfl⟩ := List.mem_map.mp hx
      by_cases hid : y.id = c.id
      · rw [if_pos hid]
        simp
      · rw [if_neg hid]
        intro hyact
        have hyf : y ∈ s.voucherConfigs.filter (fun c => c.isActive) :=
          List.mem_filter.mpr ⟨hy, hyact⟩
        have hcf : c ∈ s.voucherConfigs.filter (fun c => c.isActive) :=
          List.mem_filter.mpr ⟨hcmem, hcact⟩
        exact hid (congrArg VoucherConfig.id
          (mem_eq_of_length_le_one h hyf hcf))

/-- Given at most one active config, `configureVouchers` leaves
exactly the newly created config active. -/
theorem configure_active_filter (s : Store) (d : ConfigData)
    (h : countActiveConfigs s ≤ 1) :
    (configureVouchers s d).voucherConfigs.filter (fun c => c.isActive) =
      [⟨s.nextConfigId, d.servicesRequired, d.discountPercentage,
        d.validityDays, true⟩] := by
  have hnil := deactivation_clears_actives s h
  unfold configureVouchers
  cases hac : getActiveVoucherConfig s with
  | none =>
      rw [hac] at hnil
      dsimp only at hnil ⊢
      rw [List.filter_cons_of_pos (by rfl), hnil]
      rfl
  | some c =>
      rw [hac] at hnil
      dsimp only at hnil ⊢
      rw [List.filter_cons_of_pos (by rfl), hnil]
      rfl

/-- Under the invariant, `configureVouchers` yields exactly one active
config. -/
theorem configure_count_one (s : Store) (d : ConfigData)
    (h : countActiveConfigs s ≤ 1) :
    countActiveConfigs (configureVouchers s d) = 1 := by
  unfold countActiveConfigs
  rw [configure_active_filter s d h]
  rfl

/-- **C9.** `configureVouchers` first deactivates the active config and
then creates the new one active: starting from at most one active
config, exactly the newly created config is active afterwards (so the
previously active one is deactivated), and the at-most-one-active
invariant holds after every sequence of configuration calls on the
system (configuration rows are mutated by no other operation, starting
from the empty store). -/
theorem configure_single_active_invariant (s : Store) (d : ConfigData)
    (h : countActiveConfigs s ≤ 1) :
    (configureVouchers s d).voucherConfigs.filter (fun c => c.isActive) =
      [⟨s.nextConfigId, d.servicesRequired, d.discountPercentage,
        d.validityDays, true⟩] ∧
    countActiveConfigs (configureVouchers s d) = 1 ∧
    (∀ ds : List ConfigData,
      countActiveConfigs (List.foldl configureVouchers emptyStore ds) ≤ 1) := by
  refine ⟨configure_active_filter s d h, configure_count_one s d h, ?_⟩
  have hstep : ∀ (ds : List ConfigData) (t : Store),
      countActiveConfigs t ≤ 1 →
      countActiveConfigs (List.foldl configureVouchers t ds) ≤ 1 := by
    intro ds
    induction ds with
    | nil => intro t ht; exact ht
    | cons dd dds ih =>
        intro t ht
        exact ih _ (by rw [configure_count_one t dd ht])
  exact fun ds => hstep ds emptyStore (by decide)

/-- Witness for `configure_single_active_invariant` on `voucherStore`
(one active config): reconfiguring leaves exactly the new config
active. -/
theorem configure_single_active_invariant_witness :
    (configureVouchers voucherStore ⟨3, 15, 10⟩).voucherConfigs.filter
        (fun c => c.isActive) =
      [⟨voucherStore.nextConfigId, 3, 15, 10, true⟩] ∧
    countActiveConfigs (configureVouchers voucherStore ⟨3, 15, 10⟩) = 1 ∧
    countActiveConfigs
      (List.foldl configureVouchers emptyStore [⟨3, 15, 10⟩, ⟨2, 5, 7⟩]) ≤ 1 :=
  ⟨(configure_single_active_invariant voucherStore ⟨3, 15, 10⟩ (by decide)).1,
   (configure_single_active_invariant voucherStore ⟨3, 15, 10⟩ (by decide)).2.1,
   (configure_single_active_invariant voucherStore ⟨3, 15, 10⟩ (by decide)).2.2
     [⟨3, 15, 10⟩, ⟨2, 5, 7⟩]⟩

/-! ### C5: voucher redemption -/

/-- Updating the found voucher's row (by id, with a code-preserving
update) makes the code lookup return the updated row. -/
theorem getVoucherByCode_updateVoucher (s : Store) (code : String)
    (v : Voucher) (hv : getVoucherByCode s code = some v)
    (f : Voucher → Voucher) (hf : ∀ w, (f w).code = w.code) :
    getVoucherByCode (updateVoucher s v.id f) code = some (f v) := by
  unfold getVoucherByCode at hv
  unfold getVoucherByCode updateVoucher
  dsimp only
  rw [find?_map_pres (fun w => w.code = code)
        (fun w => if w.id = v.id then f w else w)
        (fun w => by by_cases h : w.id = v.id <;> simp [h, hf]) s.vouchers,
    hv]
  simp

/-- **C5.** `redeemVoucher` fails with `VOUCHER_NOT_FOUND` when no
voucher has the code, `VOUCHER_NOT_OWNED` when the owner differs from
the caller, `VOUCHER_INACTIVE` when the status is not `ACTIVE`, and —
after first transitioning the voucher to `EXPIRED` — with
`VOUCHER_EXPIRED` when the expiry is past; on success the voucher
becomes `USED` with `usedAt = now` and the supplied appointment
reference recorded, and any subsequent redeem of the same code by the
owner fails with `VOUCHER_INACTIVE`, so a voucher is redeemable
exactly once. -/
theorem redeemVoucher_spec (s : Store) (u : UserCtx) (code : String)
    (aid : Option Nat) (now : Nat) :
    (getVoucherByCode s code = none →
      redeemVoucher s u code aid now = (.voucherNotFound, s)) ∧
    (∀ v, getVoucherByCode s code = some v →
      (v.userId ≠ u.id →
        redeemVoucher s u code aid now = (.voucherNotOwned, s)) ∧
      (v.userId = u.id → v.status ≠ .ACTIVE →
        redeemVoucher s u code aid now = (.voucherInactive, s)) ∧
      (v.userId = u.id → v.status = .ACTIVE → v.expiryDate < now →
        (redeemVoucher s u code aid now).1 = .voucherExpired ∧
        getVoucherByCode (redeemVoucher s u code aid now).2 code =
          some { v with status := .EXPIRED }) ∧
      (v.userId = u.id → v.status = .ACTIVE → ¬ v.expiryDate < now →
        redeemVoucher s u code none now =
          (.redeemed (markVoucherUsed none now v),
            updateVoucher s v.id (markVoucherUsed none now)) ∧
        (markVoucherUsed none now v).status = .USED ∧
        (markVoucherUsed none now v).usedAt = some now ∧
        getVoucherByCode (redeemVoucher s u code none now).2 code =
          some (markVoucherUsed none now v) ∧
        (∀ aid2 now2,
          (redeemVoucher (redeemVoucher s u code none now).2 u code
            aid2 now2).1 = .voucherInactive)) ∧
      (∀ x ap, v.userId = u.id → v.status = .ACTIVE → ¬ v.expiryDate < now →
        getAppointment s x = some ap → ap.clientId = u.id →
        redeemVoucher s u code (some x) now =
          (.redeemed (markVoucherUsed (some x) now v),
            updateVoucher s v.id (markVoucherUsed (some x) now)) ∧
        (markVoucherUsed (some x) now v).usedAppointmentId = some x)) := by
  constructor
  · intro hnone
    unfold redeemVoucher
    rw [hnone]
  · intro v hv
    refine ⟨fun hown => ?_, fun hown hact => ?_, fun hown hact hexp => ?_,
      fun hown hact hexp => ?_, fun x ap hown hact hexp hap hapc => ?_⟩
    · unfold redeemVoucher
      rw [hv]
      dsimp only
      rw [if_pos hown]
    · unfold redeemVoucher
      rw [hv]
      dsimp only
      rw [if_neg (not_not_intro hown), if_pos hact]
    · have heq : redeemVoucher s u code aid now =
          (.voucherExpired,
            updateVoucher s v.id (fun w => { w with status := .EXPIRED })) := by
        unfold redeemVoucher
        rw [hv]
        dsimp only
        rw [if_neg (not_not_intro hown), if_neg (not_not_intro hact),
          if_pos hexp]
      rw [heq]
      exact ⟨rfl, getVoucherByCode_updateVoucher s code v hv _ (fun w => rfl)⟩
    · have heq : redeemVoucher s u code none now =
          (.redeemed (markVoucherUsed none now v),
            updateVoucher s v.id (markVoucherUsed none now)) := by
        unfold redeemVoucher
        rw [hv]
        dsimp only
        rw [if_neg (not_not_intro hown), if_neg (not_not_intro hact),
          if_neg hexp]
      have hlook : getVoucherByCode
          (updateVoucher s v.id (markVoucherUsed none now)) code =
          some (markVoucherUsed none now v) :=
        getVoucherByCode_updateVoucher s code v hv _ (fun w => rfl)
      refine ⟨heq, rfl, rfl, by rw [heq]; exact hlook, ?_⟩
      intro aid2 now2
      rw [heq]
      unfold redeemVoucher
      rw [hlook]
      dsimp only [markVoucherUsed]
      rw [if_neg (not_not_intro hown), if_pos (by decide : VStatus.USED ≠ .ACTIVE)]
    · have heq : redeemVoucher s u code (some x) now =
          (.redeemed (markVoucherUsed (some x) now v),
            updateVoucher s v.id (markVoucherUsed (some x) now)) := by
        unfold redeemVoucher
        rw [hv]
        dsimp only
        rw [if_neg (not_not_intro hown), if_neg (not_not_intro hact),
          if_neg hexp, hap]
        dsimp only
        rw [if_neg (not_not_intro hapc)]
      exact ⟨heq, rfl⟩

/-- Witness for `redeemVoucher_spec` on `redeemStore`: the owner
redeems the `ACTIVE` voucher before expiry; it becomes `USED` and a
second redeem of the same code answers `VOUCHER_INACTIVE`. -/
theorem redeemVoucher_spec_witness :
    redeemVoucher redeemStore ⟨20, .CLIENTE⟩ "FIDELIDADE7" none 50 =
      (.redeemed (markVoucherUsed none 50 fixtureVoucher),
        updateVoucher redeemStore fixtureVoucher.id
          (markVoucherUsed none 50)) ∧
    (markVoucherUsed none 50 fixtureVoucher).status = .USED ∧
    (redeemVoucher
        (redeemVoucher redeemStore ⟨20, .CLIENTE⟩ "FIDELIDADE7" none 50).2
        ⟨20, .CLIENTE⟩ "FIDELIDADE7" none 60).1 = .voucherInactive := by
  have h := ((redeemVoucher_spec redeemStore ⟨20, .CLIENTE⟩ "FIDELIDADE7"
      none 50).2 fixtureVoucher (by rfl)).2.2.2.1
      (by rfl) (by rfl) (by decide)
  exact ⟨h.1, h.2.1, h.2.2.2.2 none 60⟩

end Barbearia
